import Mathlib

/-!
# Verification of the todoAPP task store, reminder scheduler and civil-time converter

Shallow embedding of `src/app/index.tsx` (a single-screen Expo to-do application).
The store state is the `todos` array of `TodoItem` records; the scheduler state is
the set of pending web fallback timers (`webTimersRef`) and the set of platform
notification handles scheduled via `expo-notifications`.  Timestamps are modelled
as `Int` milliseconds since the Unix epoch, exactly as JavaScript `Date.now()` /
`Date.getTime()` values (NaN, which arises from an invalid `Date`, is modelled as
`Option.none` where it matters).

The civil-time functions `getBeijingParts` and `makeDateFromBeijingParts` call the
JavaScript `Date` builtin (`new Date(ms).getUTC*` and `new Date(isoString)`); those
builtins are external to the repository and are modelled here after the ECMAScript
specification: the proleptic Gregorian calendar mapping between epoch days and
civil dates.  An ISO string with an out-of-range calendar component (for example
`2025-02-30`) denotes an Invalid Date whose `getTime()` is NaN; this is modelled by
`makeDateFromBeijingParts` returning `none`.
-/

namespace TodoApp

/-! ## Civil-time converter (ECMAScript `Date` model)

The decomposition of an epoch day count into a Gregorian date is phrased over the
400-year era (146097 days).  `yd j` is the number of days from the start of an era
(March 1 of a year divisible by 400) to the start of the j-th March-based year of
the era; `mcum k` is the number of days from March 1 to the first day of the k-th
March-based month (March is month 0, February is month 11). -/

/-- Gregorian leap-year test (model of the calendar used by ECMAScript `Date`). -/
def isLeap (y : Int) : Bool :=
  decide ((y % 4 = 0 ∧ y % 100 ≠ 0) ∨ y % 400 = 0)

/-- Number of days of civil month `m` (1 = January … 12 = December) in year `y`. -/
def daysInMonth (y m : Int) : Int :=
  if m = 2 then (if isLeap y then 29 else 28)
  else if m = 4 ∨ m = 6 ∨ m = 9 ∨ m = 11 then 30
  else 31

/-- Days from era start to the start of March-based year `j` of the era (`j ≤ 400`). -/
def yd (j : Nat) : Nat := 365 * j + j / 4 - j / 100 + j / 400

/-- Days from March 1 to the first day of March-based month `k` (`k ≤ 11`). -/
def mcum (k : Nat) : Nat := (153 * k + 2) / 5

/-- Day count within the era (epoch day `z` shifted to era-relative days). -/
def doeOf (z : Int) : Nat := ((z + 719468) % 146097).toNat

/-- Index of the 400-year era containing epoch day `z`. -/
def eraOf (z : Int) : Int := (z + 719468) / 146097

/-- March-based year of the era for day-of-era `doe`: the greatest `j ≤ 399` whose
year start is at or before `doe`. -/
def yoeOf (doe : Nat) : Nat := Nat.findGreatest (fun j => yd j ≤ doe) 399

/-- Day of the March-based year. -/
def doyOf (z : Int) : Nat := doeOf z - yd (yoeOf (doeOf z))

/-- March-based month for day-of-year `doy`: the greatest `k ≤ 11` whose month
start is at or before `doy`. -/
def mpOf (doy : Nat) : Nat := Nat.findGreatest (fun k => mcum k ≤ doy) 11

/-- A civil calendar date. -/
structure Ymd where
  year : Int
  month : Int
  day : Int
deriving Repr, DecidableEq

/-- Gregorian date of epoch day `z` (model of ECMAScript `YearFromTime`,
`MonthFromTime`, `DateFromTime` applied to day `z`). -/
def civilFromDays (z : Int) : Ymd :=
  { year := eraOf z * 400 + yoeOf (doeOf z) + (if 10 ≤ mpOf (doyOf z) then 1 else 0),
    month := if mpOf (doyOf z) < 10 then (mpOf (doyOf z) : Int) + 3
             else (mpOf (doyOf z) : Int) - 9,
    day := ((doyOf z - mcum (mpOf (doyOf z)) + 1 : Nat) : Int) }

/-- Epoch day of the Gregorian date `(y, m, d)` (model of ECMAScript `MakeDay`). -/
def daysFromCivil (y m d : Int) : Int :=
  let yAdj := if m ≤ 2 then y - 1 else y
  let era := yAdj / 400
  let yoe := (yAdj - 400 * era).toNat
  let mp := ((m + 9) % 12).toNat
  era * 146097 + (yd yoe : Int) + (mcum mp : Int) + d - 1 - 719468

/-- The record returned by the source's `getBeijingParts`. -/
structure BeijingParts where
  year : Int
  month : Int
  day : Int
  hour : Int
  minute : Int
deriving Repr, DecidableEq

/-- `getBeijingParts(ts)` from the source: builds `new Date(ts + 8*60*60*1000)` and
reads the UTC calendar and clock fields, i.e. the civil date/time of the instant
under the fixed +08:00 offset. -/
def getBeijingParts (ts : Int) : BeijingParts :=
  let sh := ts + 8 * 60 * 60 * 1000
  { year := (civilFromDays (sh / 86400000)).year,
    month := (civilFromDays (sh / 86400000)).month,
    day := (civilFromDays (sh / 86400000)).day,
    hour := sh % 86400000 / 3600000,
    minute := sh % 86400000 % 3600000 / 60000 }

/-- `makeDateFromBeijingParts(y, m, d, hh, mm)` from the source: builds the ISO
string `Y-MM-DDTHH:mm:00+08:00` and returns `new Date(iso)` (here: its `getTime()`).
Following the ECMAScript Date Time String Format, a string whose calendar or clock
components are out of range (such as day 30 of February) denotes an Invalid Date,
whose `getTime()` is NaN — modelled as `none`.  (`T24:00` with zero minutes is a
legal ISO instant denoting midnight of the following day.)  The engine-side
requirement that the year be printed with exactly four digits is not modelled. -/
def makeDateFromBeijingParts (y m d hh mm : Int) : Option Int :=
  if 1 ≤ m ∧ m ≤ 12 ∧ 1 ≤ d ∧ d ≤ daysInMonth y m ∧ 0 ≤ hh ∧ 0 ≤ mm ∧
      ((hh ≤ 23 ∧ mm ≤ 59) ∨ (hh = 24 ∧ mm = 0)) then
    some (86400000 * daysFromCivil y m d + 3600000 * hh + 60000 * mm - 8 * 60 * 60 * 1000)
  else none

/-! ## JavaScript string primitives

`String.prototype.trim`, single-character `String.prototype.split` and
`parseInt(str, 10)` are JavaScript builtins; they are modelled structurally over
the character list so that they evaluate definitionally. -/

/-- JavaScript `String.prototype.trim`: strips leading and trailing whitespace. -/
def jsTrim (s : String) : String :=
  ⟨((s.data.dropWhile Char.isWhitespace).reverse.dropWhile Char.isWhitespace).reverse⟩

/-- Helper for `jsSplit`: accumulates the current field in reverse. -/
def splitCharAux : List Char → Char → List Char → List String
  | [], _, acc => [⟨acc.reverse⟩]
  | c :: cs, sep, acc =>
    if c = sep then ⟨acc.reverse⟩ :: splitCharAux cs sep []
    else splitCharAux cs sep (c :: acc)

/-- JavaScript `str.split(sep)` for a single-character separator: splits at every
occurrence, keeping empty fields (`"a--b" ↦ ["a", "", "b"]`). -/
def jsSplit (s : String) (sep : Char) : List String := splitCharAux s.data sep []

/-- Base-10 value of a list of decimal digits. -/
def digitsToInt (ds : List Char) : Int :=
  ds.foldl (fun acc c => 10 * acc + ((c.toNat : Int) - 48)) 0

/-- JavaScript `parseInt(str, 10)`: skips leading whitespace, accepts an optional
sign, reads the longest digit prefix, and yields NaN (`none`) when no digit
follows. -/
def parseIntJs (str : String) : Option Int :=
  let l := str.data.dropWhile Char.isWhitespace
  let sign : Int := match l with | '-' :: _ => -1 | _ => 1
  let rest : List Char := match l with | '-' :: cs => cs | '+' :: cs => cs | cs => cs
  let ds := rest.takeWhile Char.isDigit
  if ds.isEmpty then none else some (sign * digitsToInt ds)

/-! ## Task store and reminder scheduler -/

/-- A task record (`TodoItem` in the source); the optional fields default to
`undefined`/`null`, modelled as `none`. -/
structure TodoItem where
  id : String
  title : String
  completed : Bool
  reminderTimestamp : Option Int := none
  notificationId : Option String := none
deriving Repr, DecidableEq

/-- Combined store and scheduler state: the `todos` array, the task ids with a
pending web fallback timer (the keys of `webTimersRef.current`), and the
notification handles currently scheduled on the platform notification service
(the external collaborator's state, needed to express cancellation). -/
structure AppState where
  todos : List TodoItem
  webTimers : List String
  scheduledNotifs : List String
deriving Repr, DecidableEq

/-- `handleAddTodo`: rejects a draft whose trimmed form is empty, otherwise
prepends a new task whose id is `String(Date.now())`; `now` is the value of
`Date.now()` at the call. -/
def handleAddTodo (s : AppState) (draftTitle : String) (now : Int) : AppState :=
  if (jsTrim draftTitle).length = 0 then s
  else
    { s with todos :=
        { id := toString now, title := jsTrim draftTitle, completed := false,
          reminderTimestamp := none, notificationId := none } :: s.todos }

/-- `clearReminder(todoId)`: best-effort cancel of the platform notification
recorded on the task (`cancelScheduledNotificationAsync`), removal of any pending
web timer for the id (`clearTimeout`), and resetting both reminder fields to
null on every task with that id. -/
def clearReminder (s : AppState) (todoId : String) : AppState :=
  { todos := s.todos.map (fun t =>
      if t.id == todoId then { t with reminderTimestamp := none, notificationId := none }
      else t),
    webTimers := s.webTimers.filter (fun i => i != todoId),
    scheduledNotifs :=
      match (s.todos.find? (fun t => t.id == todoId)).bind (fun t => t.notificationId) with
      | some nid => s.scheduledNotifs.filter (fun n => n != nid)
      | none => s.scheduledNotifs }

/-- `handleDeleteTodo(id)`: `clearReminder(id)` followed by filtering the task
out of the list. -/
def handleDeleteTodo (s : AppState) (id : String) : AppState :=
  let s1 := clearReminder s id
  { s1 with todos := s1.todos.filter (fun t => t.id != id) }

/-- `toggleComplete(id)`: flips `completed` on the task with the given id. -/
def toggleComplete (s : AppState) (id : String) : AppState :=
  { s with todos := s.todos.map (fun t =>
      if t.id == id then { t with completed := !t.completed } else t) }

/-- `saveEdit()`: commits the pending edit.  `editingId`/`editingText` are the
component-state values at the time of the call; a null `editingId` or an empty
trimmed text discards the edit and leaves the list unchanged. -/
def saveEdit (s : AppState) (editingId : Option String) (editingText : String) : AppState :=
  match editingId with
  | none => s
  | some eid =>
    if (jsTrim editingText).length = 0 then s
    else
      { s with todos := s.todos.map (fun t =>
          if t.id == eid then { t with title := jsTrim editingText } else t) }

/-- `completeAll()`: sets `completed := true` on every task. -/
def completeAll (s : AppState) : AppState :=
  { s with todos := s.todos.map (fun t => { t with completed := true }) }

/-- `deleteAll()` after the user confirms: the store mutation is `setTodos([])`
and nothing else — the source cancels no reminders here, so the web timers and
platform notifications are left as they are. -/
def deleteAll (s : AppState) : AppState :=
  { s with todos := [] }

/-- `clearCompleted()`: runs `clearReminder(t.id)` for every completed task
(cancelling its web timer and its recorded platform notification), then keeps
only the not-completed tasks.  The field-resetting writes of those
`clearReminder` calls land after the filter and touch only the removed ids, so
their net effect on the list is nil; the cancellations are modelled as a batch
over the completed tasks of the pre-state. -/
def clearCompleted (s : AppState) : AppState :=
  let fired := s.todos.filter (fun t => t.completed)
  { todos := s.todos.filter (fun t => !t.completed),
    webTimers := s.webTimers.filter (fun i => !(fired.any (fun t => t.id == i))),
    scheduledNotifs := s.scheduledNotifs.filter
      (fun n => !(fired.any (fun t => t.notificationId == some n))) }

/-- `scheduleReminder(todoId, date)` on the native path with permission granted:
clears the previous reminder, schedules a platform notification (the platform
returns the fresh `handle`), and records `reminderTimestamp = date.getTime()` and
`notificationId = handle` on the task. -/
def scheduleReminderNative (s : AppState) (todoId : String) (timeMs : Int)
    (handle : String) : AppState :=
  let s1 := clearReminder s todoId
  { s1 with
    todos := s1.todos.map (fun t =>
      if t.id == todoId then
        { t with reminderTimestamp := some timeMs, notificationId := some handle }
      else t),
    scheduledNotifs := handle :: s1.scheduledNotifs }

/-- `scheduleReminder(todoId, date)` on the native path with permission refused:
the arm aborts after the initial `clearReminder(todoId)` (a user-facing alert is
shown; no fields are written). -/
def scheduleReminderDenied (s : AppState) (todoId : String) : AppState :=
  clearReminder s todoId

/-- `scheduleReminder(todoId, date)` on the web fallback path: clears the
previous reminder, starts a `setTimeout` keyed by the id, and records
`reminderTimestamp = date.getTime()` with a null `notificationId`. -/
def scheduleReminderWeb (s : AppState) (todoId : String) (timeMs : Int) : AppState :=
  let s1 := clearReminder s todoId
  { s1 with
    todos := s1.todos.map (fun t =>
      if t.id == todoId then
        { t with reminderTimestamp := some timeMs, notificationId := none }
      else t),
    webTimers := todoId :: s1.webTimers }

/-- One user-triggered store/scheduler operation (the operations named by the
specification). -/
inductive Op where
  | add (title : String) (now : Int)
  | remove (id : String)
  | toggle (id : String)
  | commitEdit (editingId : Option String) (text : String)
  | doCompleteAll
  | doDeleteAll
  | doClearCompleted
  | armNative (id : String) (timeMs : Int) (handle : String)
  | armDenied (id : String)
  | armWeb (id : String) (timeMs : Int)
  | cancel (id : String)
deriving Repr, DecidableEq

/-- Interpretation of an operation on the state. -/
def applyOp (s : AppState) : Op → AppState
  | .add title now => handleAddTodo s title now
  | .remove id => handleDeleteTodo s id
  | .toggle id => toggleComplete s id
  | .commitEdit eid text => saveEdit s eid text
  | .doCompleteAll => completeAll s
  | .doDeleteAll => deleteAll s
  | .doClearCompleted => clearCompleted s
  | .armNative id t h => scheduleReminderNative s id t h
  | .armDenied id => scheduleReminderDenied s id
  | .armWeb id t => scheduleReminderWeb s id t
  | .cancel id => clearReminder s id

/-- The data-model invariant: `notificationId` is non-null only if
`reminderTimestamp` is non-null. -/
def ReminderInv (s : AppState) : Prop :=
  ∀ t ∈ s.todos, t.notificationId.isSome = true → t.reminderTimestamp.isSome = true

/-- `total`: number of tasks. -/
def total (s : AppState) : Nat := s.todos.length

/-- `completedCount`: number of tasks with `completed = true`. -/
def completedCount (s : AppState) : Nat := (s.todos.filter (fun t => t.completed)).length

/-- `pendingCount = total - completedCount`. -/
def pendingCount (s : AppState) : Nat := total s - completedCount s

/-- `percent = total === 0 ? 0 : Math.round((completedCount / total) * 100)`.
The floating-point quotient is modelled as the exact rational; `Math.round`
(round half toward positive infinity) of `100*c/t` is `(200*c + t) / (2*t)` in
integer arithmetic. -/
def percent (s : AppState) : Nat :=
  if total s = 0 then 0 else (200 * completedCount s + total s) / (2 * total s)

/-! ## Reminder modal confirm handler -/

/-- Result of pressing the confirm button of the reminder modal. -/
inductive ConfirmOutcome where
  /-- The format alert was shown; nothing else happens. -/
  | rejectedFormat
  /-- The please-choose-a-future-time alert was shown; nothing else happens. -/
  | rejectedPast
  /-- `scheduleReminder(reminderTargetId, dt)` was invoked with a date whose
  `getTime()` is `dtMs` (`none` models NaN, i.e. an Invalid Date). -/
  | scheduled (dtMs : Option Int)
deriving Repr, DecidableEq

/-- The confirm `onPress` handler of the reminder modal: splits and parses the
date and time strings, rejects unless they yield exactly five numbers, builds
the instant with `makeDateFromBeijingParts`, and rejects when
`dt.getTime() <= Date.now()`.  When `dt` is an Invalid Date, `getTime()` is NaN
and the comparison `NaN <= now` is false, so the handler proceeds to
`scheduleReminder`. -/
def confirmReminderPress (dateText timeText : String) (now : Int) : ConfirmOutcome :=
  let dateParts := (jsSplit (jsTrim dateText) '-').map parseIntJs
  let timeParts := (jsSplit (jsTrim timeText) ':').map parseIntJs
  if dateParts.length ≠ 3 ∨ timeParts.length ≠ 2 ∨
      dateParts.any Option.isNone ∨ timeParts.any Option.isNone then
    ConfirmOutcome.rejectedFormat
  else
    match dateParts, timeParts with
    | [some y, some m, some d], [some hh, some mm] =>
      match makeDateFromBeijingParts y m d hh mm with
      | some v => if v ≤ now then ConfirmOutcome.rejectedPast
                  else ConfirmOutcome.scheduled (some v)
      | none => ConfirmOutcome.scheduled none
    | _, _ => ConfirmOutcome.rejectedFormat


/-! ## Concrete sample states used by witnesses and counterexamples -/

/-- The empty state. -/
def emptyState : AppState := { todos := [], webTimers := [], scheduledNotifs := [] }

/-- A task without a reminder. -/
def taskPlain : TodoItem := { id := "1", title := "old", completed := false }

/-- A state holding only `taskPlain`. -/
def statePlain : AppState := { todos := [taskPlain], webTimers := [], scheduledNotifs := [] }

/-- A completed task with an armed web fallback reminder. -/
def taskDoneWeb : TodoItem :=
  { id := "t1", title := "done", completed := true,
    reminderTimestamp := some 1000, notificationId := none }

/-- A pending task with an armed platform reminder. -/
def taskPendingNative : TodoItem :=
  { id := "t2", title := "pending", completed := false,
    reminderTimestamp := some 2000, notificationId := some "n2" }

/-- A state with one completed web-armed task and one pending native-armed task:
the timer "t1" is pending and the platform holds handle "n2". -/
def stateArmed : AppState :=
  { todos := [taskDoneWeb, taskPendingNative],
    webTimers := ["t1"], scheduledNotifs := ["n2"] }

end TodoApp

namespace TodoApp

/-! ## Correctness of the era decomposition -/

theorem yd_yoeOf_le (doe : Nat) : yd (yoeOf doe) ≤ doe := by
  have h0 : yd 0 ≤ doe := by simp [yd]
  exact Nat.findGreatest_spec (P := fun j => yd j ≤ doe) (Nat.zero_le 399) h0

theorem yoeOf_le (doe : Nat) : yoeOf doe ≤ 399 := Nat.findGreatest_le 399

theorem lt_yd_yoeOf_succ (doe : Nat) (h : doe < 146097) : doe < yd (yoeOf doe + 1) := by
  rcases Nat.lt_or_ge (yoeOf doe) 399 with hlt | hge
  · have := Nat.findGreatest_is_greatest (P := fun j => yd j ≤ doe)
      (k := yoeOf doe + 1) (Nat.lt_succ_self _) hlt
    omega
  · have h399 : yoeOf doe = 399 := Nat.le_antisymm (yoeOf_le doe) hge
    have h400 : yd (399 + 1) = 146097 := by decide
    rw [h399]
    omega

theorem mcum_mpOf_le (doy : Nat) : mcum (mpOf doy) ≤ doy := by
  have h0 : mcum 0 ≤ doy := by simp [mcum]
  exact Nat.findGreatest_spec (P := fun k => mcum k ≤ doy) (Nat.zero_le 11) h0

theorem mpOf_le (doy : Nat) : mpOf doy ≤ 11 := Nat.findGreatest_le 11

theorem lt_mcum_mpOf_succ (doy : Nat) (h : mpOf doy < 11) : doy < mcum (mpOf doy + 1) := by
  have := Nat.findGreatest_is_greatest (P := fun k => mcum k ≤ doy)
    (k := mpOf doy + 1) (Nat.lt_succ_self _) h
  omega

theorem doeOf_lt (z : Int) : doeOf z < 146097 := by
  unfold doeOf; omega

theorem doeOf_eraOf (z : Int) : (doeOf z : Int) = z + 719468 - 146097 * eraOf z := by
  unfold doeOf eraOf; omega

theorem daysFromCivil_eq (era : Int) (yoe mp : Nat) (dd : Int)
    (hyoe : yoe ≤ 399) (hmp : mp ≤ 11) :
    daysFromCivil (era * 400 + yoe + (if 10 ≤ mp then 1 else 0))
      (if mp < 10 then (mp : Int) + 3 else (mp : Int) - 9) dd
    = era * 146097 + (yd yoe : Int) + (mcum mp : Int) + dd - 1 - 719468 := by
  simp only [daysFromCivil]
  rcases Nat.lt_or_ge mp 10 with h10 | h10
  · rw [if_pos h10, if_neg (by omega : ¬ (10 ≤ mp)), if_neg (by omega : ¬ ((mp : Int) + 3 ≤ 2))]
    simp only [add_zero]
    have e1 : (era * 400 + (yoe : Int)) / 400 = era := by omega
    rw [e1]
    have e2 : (era * 400 + (yoe : Int) - 400 * era).toNat = yoe := by omega
    rw [e2]
    have e3 : (((mp : Int) + 3 + 9) % 12).toNat = mp := by omega
    rw [e3]
  · rw [if_neg (by omega : ¬ (mp < 10)), if_pos (by omega : 10 ≤ mp),
      if_pos (by omega : (mp : Int) - 9 ≤ 2)]
    have e1 : (era * 400 + (yoe : Int) + 1 - 1) / 400 = era := by omega
    rw [e1]
    have e2 : (era * 400 + (yoe : Int) + 1 - 1 - 400 * era).toNat = yoe := by omega
    rw [e2]
    have e3 : (((mp : Int) - 9 + 9) % 12).toNat = mp := by omega
    rw [e3]

theorem civilFromDays_spec (z : Int) :
    1 ≤ (civilFromDays z).month ∧ (civilFromDays z).month ≤ 12 ∧
    1 ≤ (civilFromDays z).day ∧
    (civilFromDays z).day ≤ daysInMonth (civilFromDays z).year (civilFromDays z).month ∧
    daysFromCivil (civilFromDays z).year (civilFromDays z).month (civilFromDays z).day = z := by
  have hdoeLt : doeOf z < 146097 := doeOf_lt z
  have hydle : yd (yoeOf (doeOf z)) ≤ doeOf z := yd_yoeOf_le _
  have hyoele : yoeOf (doeOf z) ≤ 399 := yoeOf_le _
  have hydsucc : doeOf z < yd (yoeOf (doeOf z) + 1) := lt_yd_yoeOf_succ _ hdoeLt
  have hmple : mpOf (doyOf z) ≤ 11 := mpOf_le _
  have hmcle : mcum (mpOf (doyOf z)) ≤ doyOf z := mcum_mpOf_le _
  have hdoeera : (doeOf z : Int) = z + 719468 - 146097 * eraOf z := doeOf_eraOf z
  have hdoyEq : doyOf z = doeOf z - yd (yoeOf (doeOf z)) := rfl
  have hlen366 : yd (yoeOf (doeOf z) + 1) ≤ yd (yoeOf (doeOf z)) + 366 := by
    unfold yd; omega
  refine ⟨?_, ?_, ?_, ?_, ?_⟩
  · simp only [civilFromDays]
    split_ifs <;> omega
  · simp only [civilFromDays]
    split_ifs <;> omega
  · simp only [civilFromDays]
    omega
  · simp only [civilFromDays]
    rcases Nat.lt_or_ge (mpOf (doyOf z)) 11 with h11 | h11
    · have hnext : doyOf z < mcum (mpOf (doyOf z) + 1) := lt_mcum_mpOf_succ _ h11
      unfold daysInMonth
      split_ifs <;> simp only [mcum] at * <;> omega
    · have h11' : mpOf (doyOf z) = 11 := Nat.le_antisymm hmple h11
      rw [h11'] at hmcle ⊢
      have hif1 : (if (10:Nat) ≤ 11 then (1:Int) else 0) = 1 := by norm_num
      have hif2 : (if (11:Nat) < 10 then ((11:Nat) : Int) + 3 else ((11:Nat) : Int) - 9) = 2 := by
        norm_num
      rw [hif1, hif2]
      unfold daysInMonth
      rw [if_pos rfl]
      set Y : Int := eraOf z * 400 + (yoeOf (doeOf z) : Int) + 1 with hY
      rcases Decidable.em ((Y % 4 = 0 ∧ Y % 100 ≠ 0) ∨ Y % 400 = 0) with hl | hl
      · rw [if_pos (by simp only [isLeap, decide_eq_true_eq]; omega)]
        simp only [mcum] at *
        omega
      · rw [if_neg (by simp only [isLeap, decide_eq_true_eq]; omega)]
        have hlen365 : yd (yoeOf (doeOf z) + 1) ≤ yd (yoeOf (doeOf z)) + 365 := by
          unfold yd
          omega
        simp only [mcum] at *
        omega
  · simp only [civilFromDays]
    rw [daysFromCivil_eq (eraOf z) (yoeOf (doeOf z)) (mpOf (doyOf z))
      ((doyOf z - mcum (mpOf (doyOf z)) + 1 : Nat) : Int) hyoele hmple]
    omega

end TodoApp

namespace TodoApp

/-! ## Claim theorems: store operations -/

/-- C7: for a draft whose trimmed form is non-empty, `handleAddTodo` prepends
exactly one new task (fresh id `String(now)`, `completed = false`, null reminder
fields), leaving all existing tasks and the scheduler state unchanged; for an
empty trimmed draft it is a no-op. -/
theorem handleAddTodo_spec (s : AppState) (draftTitle : String) (now : Int) :
    ((jsTrim draftTitle).length = 0 → handleAddTodo s draftTitle now = s) ∧
    ((jsTrim draftTitle).length ≠ 0 →
      (handleAddTodo s draftTitle now).todos =
        { id := toString now, title := jsTrim draftTitle, completed := false,
          reminderTimestamp := none, notificationId := none } :: s.todos ∧
      (handleAddTodo s draftTitle now).todos.length = s.todos.length + 1 ∧
      (handleAddTodo s draftTitle now).webTimers = s.webTimers ∧
      (handleAddTodo s draftTitle now).scheduledNotifs = s.scheduledNotifs) := by
  constructor
  · intro h
    simp [handleAddTodo, h]
  · intro h
    refine ⟨?_, ?_, ?_, ?_⟩ <;> simp [handleAddTodo, h]

/-- Witness for C7: adding " buy milk " to the empty state yields exactly one
task with the trimmed title, and adding blanks is a no-op. -/
theorem handleAddTodo_spec_witness :
    (jsTrim " buy milk ").length ≠ 0 ∧
    (handleAddTodo emptyState " buy milk " 42).todos =
      { id := toString (42 : Int), title := jsTrim " buy milk ", completed := false,
        reminderTimestamp := none, notificationId := none } :: emptyState.todos ∧
    handleAddTodo emptyState "   " 42 = emptyState :=
  ⟨by decide,
   ((handleAddTodo_spec emptyState " buy milk " 42).2 (by decide)).1,
   (handleAddTodo_spec emptyState "   " 42).1 (by decide)⟩

/-- C8: `saveEdit` with no task under edit, or with an empty trimmed text, is a
no-op (the original title survives); with a non-empty trimmed text it replaces
exactly the target task's title by the trimmed text, leaving every other field,
every other task, the order and the scheduler state unchanged. -/
theorem saveEdit_spec (s : AppState) (eid : String) (text : String) :
    (saveEdit s none text = s) ∧
    ((jsTrim text).length = 0 → saveEdit s (some eid) text = s) ∧
    ((jsTrim text).length ≠ 0 →
      (∀ i : Nat, (saveEdit s (some eid) text).todos[i]? =
        (s.todos[i]?).map (fun t =>
          if t.id == eid then { t with title := jsTrim text } else t)) ∧
      (saveEdit s (some eid) text).webTimers = s.webTimers ∧
      (saveEdit s (some eid) text).scheduledNotifs = s.scheduledNotifs) := by
  refine ⟨rfl, ?_, ?_⟩
  · intro h
    simp [saveEdit, h]
  · intro h
    simp only [saveEdit]
    rw [if_neg h]
    exact ⟨fun i => by simp, rfl, rfl⟩

/-- Witness for C8: committing blanks over task "1" leaves the state untouched,
and committing " new " replaces exactly the title by "new". -/
theorem saveEdit_spec_witness :
    saveEdit statePlain (some "1") "  " = statePlain ∧
    (saveEdit statePlain (some "1") " new ").todos[0]? =
      some { id := "1", title := "new", completed := false,
             reminderTimestamp := none, notificationId := none } := by
  constructor
  · exact (saveEdit_spec statePlain "1" "  ").2.1 (by decide)
  · rw [((saveEdit_spec statePlain "1" " new ").2.2 (by decide)).1 0]
    rfl

/-- C9: `completeAll` sets `completed := true` on every task while leaving id,
title, `reminderTimestamp`, `notificationId`, the list length and order, and the
scheduler state unchanged. -/
theorem completeAll_spec (s : AppState) (i : Nat) :
    (completeAll s).todos.length = s.todos.length ∧
    (completeAll s).todos[i]? = (s.todos[i]?).map (fun t => { t with completed := true }) ∧
    (∀ t ∈ (completeAll s).todos, t.completed = true) ∧
    (completeAll s).webTimers = s.webTimers ∧
    (completeAll s).scheduledNotifs = s.scheduledNotifs := by
  refine ⟨by simp [completeAll], by simp [completeAll], ?_, rfl, rfl⟩
  intro t ht
  simp only [completeAll, List.mem_map] at ht
  obtain ⟨u, _, rfl⟩ := ht
  rfl

/-- Witness for C9 on a one-task state. -/
theorem completeAll_spec_witness :
    (completeAll statePlain).todos[0]? =
      some { id := "1", title := "old", completed := true,
             reminderTimestamp := none, notificationId := none } := by
  rw [(completeAll_spec statePlain 0).2.1]
  rfl

/-- C10: the aggregate counters satisfy `total = completedCount + pendingCount`
and `completedCount ≤ total`, and on the empty list the guarded percentage is 0
(the division by `total` is never executed with `total = 0`). -/
theorem stats_spec (s : AppState) :
    total s = completedCount s + pendingCount s ∧
    completedCount s ≤ total s ∧
    (total s = 0 → percent s = 0) := by
  have hle : completedCount s ≤ total s := by
    simpa [completedCount, total] using List.length_filter_le (fun t => t.completed) s.todos
  refine ⟨by unfold pendingCount; omega, hle, ?_⟩
  intro h
  simp [percent, h]

/-- Witness for C10 on the empty state. -/
theorem stats_spec_witness : percent emptyState = 0 :=
  (stats_spec emptyState).2.2 rfl

end TodoApp

namespace TodoApp

/-- C4: for every instant `t` truncated to minute precision, the civil-time
round trip under the fixed +08:00 offset holds: applying
`makeDateFromBeijingParts` to the five fields of `getBeijingParts t` returns
exactly `some t`. -/
theorem beijing_round_trip (t : Int) (h : t % 60000 = 0) :
    makeDateFromBeijingParts (getBeijingParts t).year (getBeijingParts t).month
      (getBeijingParts t).day (getBeijingParts t).hour (getBeijingParts t).minute
    = some t := by
  have hs := civilFromDays_spec ((t + 8 * 60 * 60 * 1000) / 86400000)
  obtain ⟨h1, h2, h3, h4, h5⟩ := hs
  simp only [getBeijingParts]
  unfold makeDateFromBeijingParts
  rw [if_pos ⟨h1, h2, h3, h4, by omega, by omega, Or.inl ⟨by omega, by omega⟩⟩]
  rw [h5]
  simp only [Option.some.injEq]
  omega

/-- Witness for C4 at civil 2025-01-01 09:30 +08:00 (epoch 1735695000000 ms). -/
theorem beijing_round_trip_witness :
    (1735695000000 : Int) % 60000 = 0 ∧
    makeDateFromBeijingParts (getBeijingParts 1735695000000).year
      (getBeijingParts 1735695000000).month (getBeijingParts 1735695000000).day
      (getBeijingParts 1735695000000).hour (getBeijingParts 1735695000000).minute
    = some 1735695000000 :=
  ⟨by decide, beijing_round_trip 1735695000000 (by decide)⟩

/-- C1 (failing input): at `stateArmed` — one task with a pending web fallback
timer "t1" and one task with a scheduled platform notification "n2" — the
confirmed `deleteAll` empties the list but leaves the timer pending and the
notification scheduled: the source's `deleteAll` only calls `setTodos([])` and
cancels no reminder, so triggers stay armed for the deleted tasks. -/
theorem deleteAll_leaves_triggers_armed :
    (deleteAll stateArmed).todos = [] ∧
    (deleteAll stateArmed).webTimers = ["t1"] ∧
    (deleteAll stateArmed).scheduledNotifs = ["n2"] :=
  ⟨rfl, rfl, rfl⟩

/-- C2 (failing input): with date "2025-02-30" and time "09:30" the confirm
handler parses five valid integers, `makeDateFromBeijingParts` yields an
Invalid Date (`none`, i.e. `getTime()` NaN), the past-time guard
`dt.getTime() <= Date.now()` is false for NaN, and the handler proceeds to
`scheduleReminder` with the invalid date instead of rejecting with a
validation error: the task's state is then changed (an immediate web timer is
armed and `reminderTimestamp` is written as NaN). -/
theorem invalid_date_not_rejected :
    confirmReminderPress "2025-02-30" "09:30" 1735695000000
      = ConfirmOutcome.scheduled none ∧
    makeDateFromBeijingParts 2025 2 30 9 30 = none := by
  exact ⟨by decide, by decide⟩

/-- C3 (counterexample): `handleAddTodo` derives the id from `Date.now()`, so
two adds within the same millisecond (both at `now = 5`) produce two tasks with
the same id "5": the list's ids are not pairwise distinct. -/
theorem duplicate_ids_same_millisecond :
    ¬ (((handleAddTodo (handleAddTodo emptyState "a" 5) "b" 5).todos.map
        (fun t => t.id)).Nodup) := by
  decide

/-- C3 (amended): ids stay pairwise distinct provided every add occurs at a
timestamp whose string form differs from each id already present — in
particular when all adds happen at pairwise distinct `Date.now()` millisecond
values: one `handleAddTodo` step preserves distinctness under that freshness
hypothesis. -/
theorem handleAddTodo_preserves_distinct_ids (s : AppState) (title : String) (now : Int)
    (h1 : (s.todos.map (fun t => t.id)).Nodup)
    (h2 : ∀ t ∈ s.todos, t.id ≠ toString now) :
    ((handleAddTodo s title now).todos.map (fun t => t.id)).Nodup := by
  unfold handleAddTodo
  split_ifs with h
  · exact h1
  · simp only [List.map_cons, List.nodup_cons]
    refine ⟨?_, h1⟩
    intro hmem
    simp only [List.mem_map] at hmem
    obtain ⟨t, ht, hid⟩ := hmem
    exact h2 t ht hid

/-- Witness for the amended C3: the single existing id "1" differs from the
incoming timestamp string "2", so distinctness is preserved. -/
theorem handleAddTodo_preserves_distinct_ids_witness :
    ((handleAddTodo statePlain "x" 2).todos.map (fun t => t.id)).Nodup :=
  handleAddTodo_preserves_distinct_ids statePlain "x" 2 (by decide) (by decide)

end TodoApp

namespace TodoApp

/-- C6: `clearCompleted` keeps exactly the not-completed tasks (in their
original relative order, as a sublist of the original list) and cancels the
armed reminder of every removed task: the removed task's pending web timer is
stopped and its recorded platform notification is no longer scheduled. -/
theorem clearCompleted_spec (s : AppState) :
    (clearCompleted s).todos = s.todos.filter (fun t => !t.completed) ∧
    (∀ t, t ∈ (clearCompleted s).todos ↔ t ∈ s.todos ∧ t.completed = false) ∧
    (clearCompleted s).todos.Sublist s.todos ∧
    (∀ t ∈ s.todos, t.completed = true →
      t.id ∉ (clearCompleted s).webTimers ∧
      ∀ nid, t.notificationId = some nid → nid ∉ (clearCompleted s).scheduledNotifs) := by
  refine ⟨rfl, ?_, ?_, ?_⟩
  · intro t
    simp [clearCompleted, List.mem_filter]
  · exact List.filter_sublist s.todos
  · intro t ht hc
    have hfired : t ∈ s.todos.filter (fun u => u.completed) := by
      rw [List.mem_filter]
      exact ⟨ht, hc⟩
    constructor
    · intro hmem
      simp only [clearCompleted, List.mem_filter] at hmem
      have hany : (s.todos.filter (fun u => u.completed)).any (fun u => u.id == t.id) = true := by
        rw [List.any_eq_true]
        exact ⟨t, hfired, by simp⟩
      rw [hany] at hmem
      simp at hmem
    · intro nid hnid hmem
      simp only [clearCompleted, List.mem_filter] at hmem
      have hany : (s.todos.filter (fun u => u.completed)).any
          (fun u => u.notificationId == some nid) = true := by
        rw [List.any_eq_true]
        refine ⟨t, hfired, ?_⟩
        rw [hnid]
        simp
      rw [hany] at hmem
      simp at hmem

/-- Witness for C6 at `stateArmed`: the removed completed task's timer "t1" is
cancelled and the remaining tasks form a sublist of the original list. -/
theorem clearCompleted_spec_witness :
    taskDoneWeb.id ∉ (clearCompleted stateArmed).webTimers ∧
    (clearCompleted stateArmed).todos.Sublist stateArmed.todos :=
  ⟨((clearCompleted_spec stateArmed).2.2.2 taskDoneWeb (by decide) (by decide)).1,
   (clearCompleted_spec stateArmed).2.2.1⟩

/-- `clearReminder` preserves the reminder-field invariant: it nulls both
fields of the target task and leaves every other task unchanged. -/
theorem reminderInv_clearReminder (s : AppState) (todoId : String) (h : ReminderInv s) :
    ReminderInv (clearReminder s todoId) := by
  intro t ht
  simp only [clearReminder, List.mem_map] at ht
  obtain ⟨u, hu, heq⟩ := ht
  subst heq
  by_cases hid : (u.id == todoId) = true
  · rw [if_pos hid]
    intro hni
    simp at hni
  · rw [if_neg hid]
    exact h u hu

/-- C5: every store/scheduler operation — arm (native, denied or web fallback),
cancel, add, toggle, commit-edit, remove, complete-all, delete-all and
clear-completed — preserves the invariant that `notificationId` is non-null
only if `reminderTimestamp` is non-null. -/
theorem applyOp_preserves_reminderInv (s : AppState) (op : Op) (h : ReminderInv s) :
    ReminderInv (applyOp s op) := by
  cases op with
  | add title now =>
    simp only [applyOp, handleAddTodo]
    split_ifs with hlen
    · exact h
    · intro t ht
      rcases List.mem_cons.mp ht with rfl | ht'
      · intro hni
        simp at hni
      · exact h t ht'
  | remove id =>
    intro t ht
    simp only [applyOp, handleDeleteTodo, List.mem_filter] at ht
    exact reminderInv_clearReminder s id h t ht.1
  | toggle id =>
    intro t ht
    simp only [applyOp, toggleComplete, List.mem_map] at ht
    obtain ⟨u, hu, heq⟩ := ht
    subst heq
    by_cases hid : (u.id == id) = true
    · rw [if_pos hid]
      exact h u hu
    · rw [if_neg hid]
      exact h u hu
  | commitEdit eid text =>
    cases eid with
    | none => exact h
    | some e =>
      simp only [applyOp, saveEdit]
      split_ifs with hlen
      · exact h
      · intro t ht
        simp only [List.mem_map] at ht
        obtain ⟨u, hu, heq⟩ := ht
        subst heq
        by_cases hid : (u.id == e) = true
        · rw [if_pos hid]
          exact h u hu
        · rw [if_neg hid]
          exact h u hu
  | doCompleteAll =>
    intro t ht
    simp only [applyOp, completeAll, List.mem_map] at ht
    obtain ⟨u, hu, heq⟩ := ht
    subst heq
    exact h u hu
  | doDeleteAll =>
    intro t ht
    simp only [applyOp, deleteAll] at ht
    simp at ht
  | doClearCompleted =>
    intro t ht
    simp only [applyOp, clearCompleted, List.mem_filter] at ht
    exact h t ht.1
  | armNative id timeMs handle =>
    intro t ht
    simp only [applyOp, scheduleReminderNative, List.mem_map] at ht
    obtain ⟨u, hu, heq⟩ := ht
    subst heq
    by_cases hid : (u.id == id) = true
    · rw [if_pos hid]
      intro _
      rfl
    · rw [if_neg hid]
      exact reminderInv_clearReminder s id h u hu
  | armDenied id =>
    exact reminderInv_clearReminder s id h
  | armWeb id timeMs =>
    intro t ht
    simp only [applyOp, scheduleReminderWeb, List.mem_map] at ht
    obtain ⟨u, hu, heq⟩ := ht
    subst heq
    by_cases hid : (u.id == id) = true
    · rw [if_pos hid]
      intro hni
      simp at hni
    · rw [if_neg hid]
      exact reminderInv_clearReminder s id h u hu
  | cancel id =>
    exact reminderInv_clearReminder s id h

/-- Witness for C5: the invariant holds at `stateArmed` and is preserved by a
toggle. -/
theorem applyOp_preserves_reminderInv_witness :
    ReminderInv (applyOp stateArmed (Op.toggle "t2")) :=
  applyOp_preserves_reminderInv stateArmed (Op.toggle "t2")
    (by unfold ReminderInv; decide)

end TodoApp
